import Mathlib

set_option maxRecDepth 100000

namespace Sumi

/-! Shallow embedding of the sumi ABI wrapper generator (src/main.rs).
    The generator reads a JSON contract interface description, selects the
    eligible functions, computes each 4-byte EVM selector by Keccak-256 of
    the canonical signature, maps ABI parameter types into Rust type text,
    and renders a fixed module template with custom casing formatters. -/

/-- JSON values as manipulated by the generator. This models the dynamic
documents of the json and serde_json crates: numbers are modelled as
integers and string escape sequences are not modelled, because the
generator only reads string fields and re-emits names verbatim. -/
inductive Json where
  | null : Json
  | bool : Bool → Json
  | num : Int → Json
  | str : String → Json
  | arr : List Json → Json
  | obj : List (String × Json) → Json

/-- First binding of a key in an object field list. -/
def lookupField : List (String × Json) → String → Json
  | [], _ => .null
  | (k, v) :: rest, key => if k == key then v else lookupField rest key

/-- Indexing a JSON value by key, as in the json crate: a missing key or a
non-object receiver yields null. -/
def jsonIndex (j : Json) (key : String) : Json :=
  match j with
  | .obj fields => lookupField fields key
  | _ => .null

/-- The members iterator of the json crate: array elements, and the empty
sequence for every non-array value. -/
def jsonMembers : Json → List Json
  | .arr items => items
  | _ => []

/-- as_str of the json crate: some for string values only. -/
def jsonAsStr : Json → Option String
  | .str s => some s
  | _ => none

/-- Equality of a JSON value against a string literal, as in the PartialEq
impl of the json crate: true only for a string value with equal content. -/
def jsonEqStr (j : Json) (s : String) : Bool :=
  match j with
  | .str t => t == s
  | _ => false

mutual

/-- Serialization of a JSON value, modelling the dump of the json crate
(string escape sequences are not modelled). -/
def jsonDump : Json → String
  | .null => "null"
  | .bool b => if b then "true" else "false"
  | .num n => toString n
  | .str s => "\"" ++ s ++ "\""
  | .arr items => "[" ++ jsonDumpItems items ++ "]"
  | .obj fields => "\x7b" ++ jsonDumpFields fields ++ "\x7d"

/-- Comma-joined dump of array items. -/
def jsonDumpItems : List Json → String
  | [] => ""
  | [j] => jsonDump j
  | j :: rest => jsonDump j ++ "," ++ jsonDumpItems rest

/-- Comma-joined dump of object fields. -/
def jsonDumpFields : List (String × Json) → String
  | [] => ""
  | [(k, v)] => "\"" ++ k ++ "\":" ++ jsonDump v
  | (k, v) :: rest => "\"" ++ k ++ "\":" ++ jsonDump v ++ "," ++ jsonDumpFields rest

end

/-- Display of a JSON value as used by to_string in main: a string value
displays as its raw content without quotes, everything else as its dump. -/
def jsonDisplay : Json → String
  | .str s => s
  | j => jsonDump j

/-- ABI parameter types, mirroring the ethabi ParamType enum. -/
inductive ParamType where
  | Address : ParamType
  | Bytes : ParamType
  | Int : Nat → ParamType
  | Uint : Nat → ParamType
  | Bool : ParamType
  | String : ParamType
  | Array : ParamType → ParamType
  | FixedBytes : Nat → ParamType
  | FixedArray : ParamType → Nat → ParamType
  | Tuple : List ParamType → ParamType

mutual

/-- The derived Debug rendering of an ethabi ParamType, as it appears in
the panic message of convert_type. -/
def paramTypeDebug : ParamType → String
  | .Address => "Address"
  | .Bytes => "Bytes"
  | .Int n => "Int(" ++ toString n ++ ")"
  | .Uint n => "Uint(" ++ toString n ++ ")"
  | .Bool => "Bool"
  | .String => "String"
  | .Array inner => "Array(" ++ paramTypeDebug inner ++ ")"
  | .FixedBytes n => "FixedBytes(" ++ toString n ++ ")"
  | .FixedArray inner n => "FixedArray(" ++ paramTypeDebug inner ++ ", " ++ toString n ++ ")"
  | .Tuple inner => "Tuple([" ++ paramTypeDebugList inner ++ "])"

/-- Comma-joined Debug rendering of a ParamType list. -/
def paramTypeDebugList : List ParamType → String
  | [] => ""
  | [t] => paramTypeDebug t
  | t :: rest => paramTypeDebug t ++ ", " ++ paramTypeDebugList rest

end

mutual

/-- Translation of convert_type from src/main.rs lines 171-184. The Rust
function panics via todo! on the remaining variants (String and Int); the
panic is modelled as an error value carrying the panic message. -/
def convert_type : ParamType → Except String String
  | .Bool => .ok "bool"
  | .Address => .ok "H160"
  | .Array inner =>
    match convert_type inner with
    | .error e => .error e
    | .ok s => .ok ("Vec<" ++ s ++ ">")
  | .FixedArray inner size =>
    match convert_type inner with
    | .error e => .error e
    | .ok s => .ok ("[" ++ s ++ "; " ++ toString size ++ "]")
  | .Tuple inner =>
    match convert_type_list inner with
    | .error e => .error e
    | .ok ss => .ok ("(" ++ String.intercalate ", " ss ++ ")")
  | .Uint _ => .ok "U256"
  | .FixedBytes size => .ok ("[u8; " ++ toString size ++ "]")
  | .Bytes => .ok "Vec<u8>"
  | t => .error ("not yet implemented: convert_type for " ++ paramTypeDebug t)

/-- convert_type applied to each element of a tuple in order, stopping at
the first failure (the first panic aborts the whole computation). -/
def convert_type_list : List ParamType → Except String (List String)
  | [] => .ok []
  | t :: ts =>
    match convert_type t with
    | .error e => .error e
    | .ok s =>
      match convert_type_list ts with
      | .error e => .error e
      | .ok ss => .ok (s :: ss)

end

/-- Effectful map over a list, stopping at the first error. Models a Rust
iterator map collected into a Vec where the closure can abort the process:
elements after the first failing one are never processed. -/
def mapExcept (f : α → Except String β) : List α → Except String (List β)
  | [] => .ok []
  | a :: as =>
    match f a with
    | .error e => .error e
    | .ok b =>
      match mapExcept f as with
      | .error e => .error e
      | .ok bs => .ok (b :: bs)

/-- Whether the pattern (first argument) is a prefix of the character list. -/
def charsStartWith : List Char → List Char → Bool
  | p :: ps, c :: cs => p == c && charsStartWith ps cs
  | ps, _ => ps.isEmpty

/-- Decimal digit accumulation for usize parsing. -/
def parseNatDigitsGo (acc : Nat) : List Char → Option Nat
  | [] => some acc
  | c :: rest => if c.isDigit then parseNatDigitsGo (acc * 10 + (c.toNat - 48)) rest else none

/-- usize::from_str: fails on an empty string or any non-digit character. -/
def parseUsize (cs : List Char) : Option Nat :=
  match cs with
  | [] => none
  | _ => parseNatDigitsGo 0 cs

/-- Splits a character list at commas that sit at parenthesis depth zero,
tracking only parentheses, as the tuple loop of the ethabi reader does. -/
def splitTopComma (depth : Nat) (cur : List Char) : List Char → List (List Char)
  | [] => [cur.reverse]
  | c :: rest =>
    if c == ',' && depth == 0 then cur.reverse :: splitTopComma 0 [] rest
    else if c == '(' then splitTopComma (depth + 1) (c :: cur) rest
    else if c == ')' then splitTopComma (depth - 1) (c :: cur) rest
    else splitTopComma depth (c :: cur) rest

/-- Modelled from ethabi param_type Reader::read, the parser the generator
calls on every raw ABI type string (an external crate, reproduced here from
its documented grammar): a trailing bracket suffix parses an array or fixed
array of the recursively parsed prefix, a trailing parenthesis parses a
tuple by splitting at top level commas with empty components skipped, and
otherwise the base names are matched exactly before the width-suffixed int,
uint and bytes forms. Error messages are abbreviated. The fuel argument
bounds recursion depth and exceeds it for every input by construction. -/
def readerReadAux : Nat → List Char → Except String ParamType
  | 0, name => .error ("invalid name: " ++ String.mk name)
  | fuel + 1, name =>
    match name.getLast? with
    | some ')' =>
      if name.head? != some '(' then .error ("invalid name: " ++ String.mk name)
      else
        let inner := (name.drop 1).dropLast
        let parts := (splitTopComma 0 [] inner).filter (fun p => !p.isEmpty)
        match mapExcept (readerReadAux fuel) parts with
        | .error e => .error e
        | .ok ts => .ok (.Tuple ts)
    | some ']' =>
      let num := (((name.reverse.drop 1).takeWhile (fun c => c != '[')).reverse)
      let count := name.length
      if num.isEmpty then
        match readerReadAux fuel (name.take (count - 2)) with
        | .error e => .error e
        | .ok subtype => .ok (.Array subtype)
      else
        match parseUsize num with
        | none => .error ("invalid digit: " ++ String.mk name)
        | some len =>
          match readerReadAux fuel (name.take (count - num.length - 2)) with
          | .error e => .error e
          | .ok subtype => .ok (.FixedArray subtype len)
    | _ =>
      let s := String.mk name
      if s == "address" then .ok .Address
      else if s == "bytes" then .ok .Bytes
      else if s == "bool" then .ok .Bool
      else if s == "string" then .ok .String
      else if s == "int" then .ok (.Int 256)
      else if s == "tuple" then .ok (.Tuple [])
      else if s == "uint" then .ok (.Uint 256)
      else if charsStartWith ['i', 'n', 't'] name then
        match parseUsize (name.drop 3) with
        | some n => .ok (.Int n)
        | none => .error ("invalid digit: " ++ s)
      else if charsStartWith ['u', 'i', 'n', 't'] name then
        match parseUsize (name.drop 4) with
        | some n => .ok (.Uint n)
        | none => .error ("invalid digit: " ++ s)
      else if charsStartWith ['b', 'y', 't', 'e', 's'] name then
        match parseUsize (name.drop 5) with
        | some n => .ok (.FixedBytes n)
        | none => .error ("invalid digit: " ++ s)
      else .error ("invalid name: " ++ s)

/-- Reader::read on a string, with ample fuel. -/
def readerRead (s : String) : Except String ParamType :=
  readerReadAux (s.length + 1) s.data

/-! Section: Keccak-256

The generator hashes each canonical signature with the Keccak256 hasher of
the sha3 crate, an external dependency. The permutation and the original
Keccak padding (domain byte 0x01, unlike the SHA3-256 domain byte 0x06)
are reproduced here from the Keccak reference so that selectors can be
computed inside the embedding. Lanes are 64-bit words modelled as Nat with
explicit reduction modulo 2^64; bytes are Nat below 256. -/

/-- Left rotation of a 64-bit lane. -/
def rotl64 (x n : Nat) : Nat :=
  ((x <<< n) % (2 ^ 64)) ||| (x >>> (64 - n))

/-- Lane lookup in a 25-element state, defaulting to zero. -/
def lget (s : List Nat) (i : Nat) : Nat := s.getD i 0

/-- The theta step of the Keccak round. -/
def theta (A : List Nat) : List Nat :=
  let C := (List.range 5).map fun x =>
    (lget A x) ^^^ (lget A (x + 5)) ^^^ (lget A (x + 10)) ^^^ (lget A (x + 15)) ^^^ (lget A (x + 20))
  let D := (List.range 5).map fun x =>
    (lget C ((x + 4) % 5)) ^^^ rotl64 (lget C ((x + 1) % 5)) 1
  (List.range 25).map fun i => (lget A i) ^^^ (lget D (i % 5))

/-- Offset assignments along the standard rho walk: starting from lane
(1, 0), step t gives that lane the rotation ((t + 1)(t + 2) / 2) mod 64
and moves to lane (y, (2 x + 3 y) mod 5). -/
def rhoPairs : Nat → Nat → Nat × Nat → List (Nat × Nat)
  | 0, _, _ => []
  | n + 1, t, (x, y) =>
    (x + 5 * y, ((t + 1) * (t + 2) / 2) % 64) :: rhoPairs n (t + 1) (y, (2 * x + 3 * y) % 5)

/-- Rotation offsets of the rho step, indexed by x + 5 * y; lane (0, 0)
keeps rotation 0. -/
def rhoOffsets : List Nat :=
  (List.range 25).map fun i => ((rhoPairs 24 0 (1, 0)).lookup i).getD 0

/-- The combined rho and pi steps: the destination lane (x, y) receives the
source lane ((x + 3 y) % 5, x) rotated by its rho offset. -/
def rhoPi (A : List Nat) : List Nat :=
  (List.range 25).map fun i =>
    let x := i % 5
    let y := i / 5
    let src := (x + 3 * y) % 5 + 5 * x
    rotl64 (lget A src) (lget rhoOffsets src)

/-- The chi step. -/
def chi (B : List Nat) : List Nat :=
  (List.range 25).map fun i =>
    let x := i % 5
    let y := i / 5
    (lget B i) ^^^ (((lget B ((x + 1) % 5 + 5 * y)) ^^^ 0xFFFFFFFFFFFFFFFF) &&& (lget B ((x + 2) % 5 + 5 * y)))

/-- The 24 round constants of Keccak-f[1600]. -/
def keccakRC : List Nat :=
  [0x0000000000000001, 0x0000000000008082, 0x800000000000808a, 0x8000000080008000,
   0x000000000000808b, 0x0000000080000001, 0x8000000080008081, 0x8000000000008009,
   0x000000000000008a, 0x0000000000000088, 0x0000000080008009, 0x000000008000000a,
   0x000000008000808b, 0x800000000000008b, 0x8000000000008089, 0x8000000000008003,
   0x8000000000008002, 0x8000000000000080, 0x000000000000800a, 0x800000008000000a,
   0x8000000080008081, 0x8000000000008080, 0x0000000080000001, 0x8000000080008008]

/-- The iota step: the round constant is folded into lane (0, 0). -/
def keccakIota (rc : Nat) (A : List Nat) : List Nat :=
  match A with
  | [] => []
  | a0 :: rest => (a0 ^^^ rc) :: rest

/-- One Keccak-f round. -/
def keccakRound (A : List Nat) (rc : Nat) : List Nat :=
  keccakIota rc (chi (rhoPi (theta A)))

/-- The full Keccak-f[1600] permutation. -/
def keccakF (A : List Nat) : List Nat :=
  keccakRC.foldl keccakRound A

/-- Multi-rate padding with the original Keccak domain byte 0x01 at rate
136 bytes (the Keccak-256 rate). -/
def keccakPad (msg : List Nat) : List Nat :=
  let r := 136
  let padLen := r - msg.length % r
  if padLen == 1 then msg ++ [0x81]
  else msg ++ [0x01] ++ List.replicate (padLen - 2) 0 ++ [0x80]

/-- A little-endian 8-byte group interpreted as one 64-bit lane. -/
def laneOfBytes (bs : List Nat) : Nat :=
  bs.foldr (fun b acc => acc * 256 + b) 0

/-- The 8 little-endian bytes of a 64-bit lane. -/
def laneToBytes (x : Nat) : List Nat :=
  [x % 256, x / 256 % 256, x / 256 ^ 2 % 256, x / 256 ^ 3 % 256,
   x / 256 ^ 4 % 256, x / 256 ^ 5 % 256, x / 256 ^ 6 % 256, x / 256 ^ 7 % 256]

/-- Consecutive chunks of length n, with fuel bounding the recursion. -/
def chunksOf (fuel n : Nat) (l : List Nat) : List (List Nat) :=
  match fuel with
  | 0 => []
  | fuel + 1 =>
    match l with
    | [] => []
    | _ => l.take n :: chunksOf fuel n (l.drop n)

/-- Absorbing one 136-byte block: its 17 lanes are xored into the state
and the permutation is applied. -/
def absorbBlock (state : List Nat) (block : List Nat) : List Nat :=
  let lanes := (chunksOf block.length 8 block).map laneOfBytes
  keccakF ((List.range 25).map fun i => (lget state i) ^^^ (lget lanes i))

/-- Keccak-256 of a byte sequence: pad, absorb each block into the
all-zero state, and squeeze the first 32 bytes (4 lanes, little-endian). -/
def keccak256 (msg : List Nat) : List Nat :=
  let padded := keccakPad msg
  let final := (chunksOf padded.length 136 padded).foldl absorbBlock (List.replicate 25 0)
  ((final.take 4).map laneToBytes).flatten

/-- UTF-8 encoding of one character. -/
def utf8Char (c : Char) : List Nat :=
  let n := c.toNat
  if n < 0x80 then [n]
  else if n < 0x800 then [0xC0 + n / 64, 0x80 + n % 64]
  else if n < 0x10000 then [0xE0 + n / 4096, 0x80 + n / 64 % 64, 0x80 + n % 64]
  else [0xF0 + n / 0x40000, 0x80 + n / 4096 % 64, 0x80 + n / 64 % 64, 0x80 + n % 64]

/-- The UTF-8 bytes of a string, as as_bytes yields them in Rust. -/
def utf8Bytes (s : String) : List Nat :=
  (s.data.map utf8Char).flatten

/-- One lowercase hexadecimal digit. -/
def hexDigit (n : Nat) : Char :=
  if n < 10 then Char.ofNat (48 + n) else Char.ofNat (87 + n)

/-- Lowercase hexadecimal rendering of a byte sequence, as encode_hex of
the hex crate produces it. -/
def encodeHex (bytes : List Nat) : String :=
  String.mk ((bytes.map fun b => [hexDigit (b / 16), hexDigit (b % 16)]).flatten)

/-! Section: Identifier casing

The snake and upper_snake formatters delegate to to_case of the
convert_case crate. Its default word boundaries are modelled here:
delimiters (underscore, hyphen, space, removed from the output), a
lowercase letter followed by an uppercase one, letter-digit and
digit-letter transitions, and the acronym boundary (two uppercase letters
followed by a lowercase one split before the second). Case conversion is
modelled at the ASCII level. -/

/-- The delimiter boundaries of convert_case. -/
def isDelim (c : Char) : Bool :=
  c == '_' || c == '-' || c == ' '

/-- Whether a word boundary falls between prev and c, given the character
after c when there is one. -/
def boundaryBetween (prev c : Char) (next : Option Char) : Bool :=
  (prev.isLower && c.isUpper) ||
  (prev.isLower && c.isDigit) ||
  (prev.isUpper && c.isDigit) ||
  (prev.isDigit && c.isLower) ||
  (prev.isDigit && c.isUpper) ||
  (prev.isUpper && c.isUpper &&
    (match next with
     | some n => n.isLower
     | none => false))

mutual

/-- Word accumulation: cur holds the current word reversed, prev the last
character consumed. -/
def splitWordsGo (prev : Char) (cur : List Char) : List Char → List (List Char)
  | [] => [cur.reverse]
  | c :: rest =>
    if isDelim c then cur.reverse :: splitWordsStart rest
    else if boundaryBetween prev c rest.head? then cur.reverse :: splitWordsGo c [c] rest
    else splitWordsGo c (c :: cur) rest

/-- Word splitting at the default convert_case boundaries, skipping
leading delimiters. -/
def splitWordsStart : List Char → List (List Char)
  | [] => []
  | c :: rest => if isDelim c then splitWordsStart rest else splitWordsGo c [c] rest

end

/-- to_case(Case::Snake): words lowercased and joined by underscores. -/
def toSnake (s : String) : String :=
  String.intercalate "_" ((splitWordsStart s.data).map fun w => String.mk (w.map Char.toLower))

/-- to_case(Case::UpperSnake): words uppercased and joined by
underscores. -/
def toUpperSnake (s : String) : String :=
  String.intercalate "_" ((splitWordsStart s.data).map fun w => String.mk (w.map Char.toUpper))

/-! Section: The template formatters

Each formatter registered in main (src/main.rs lines 209-241) receives a
JSON value and either appends text to the output buffer or fails. The
appended text is modelled as the ok result; a formatter error or a panic
inside the callback is modelled as an error value. -/

/-- The snake formatter: to_case(Case::Snake) on string values, a generic
error otherwise. -/
def snake_formatter : Json → Except String String
  | .str s => .ok (toSnake s)
  | _ => .error "string value expected"

/-- The upper_snake formatter: to_case(Case::UpperSnake) on string values,
a generic error otherwise. -/
def upper_snake_formatter : Json → Except String String
  | .str s => .ok (toUpperSnake s)
  | _ => .error "string value expected"

/-- The capitalize formatter: split_at(1) then uppercase the head. The
Rust split_at(1) panics on the empty string (byte index out of bounds) and
on a string whose first character occupies more than one byte (byte index
not on a character boundary); both panics are modelled as error values.
The one-byte head is an ASCII character, so its Unicode uppercasing is the
ASCII one. -/
def capitalize_formatter : Json → Except String String
  | .str s =>
    match s.data with
    | [] => .error "byte index 1 is out of bounds"
    | c :: rest =>
      if c.toNat < 0x80 then .ok (String.mk (c.toUpper :: rest))
      else .error "byte index 1 is not a char boundary"
  | _ => .error "string value expected"

/-- The convert_type formatter: parse the raw ABI type string with the
reader and map it with convert_type; both unwrap panics are modelled as
error values. -/
def convert_type_formatter : Json → Except String String
  | .str raw_type =>
    match readerRead raw_type with
    | .error e => .error e
    | .ok param_type =>
      match convert_type param_type with
      | .error e => .error e
      | .ok converted => .ok converted
  | _ => .error "string value expected"

/-- Whether a JSON value is a string, the applicability condition shared
by all four formatters. -/
def jsonIsString : Json → Bool
  | .str _ => true
  | _ => false

/-! Section: The selection pipeline -/

/-- Mirror of struct Input in src/main.rs. -/
structure Input where
  name : String
  evm_type : String
  rust_type : String
  deriving DecidableEq

/-- Mirror of struct Function in src/main.rs: selector holds the canonical
signature string and selector_hash its 4-byte selector in lowercase
hexadecimal. -/
structure Function where
  name : String
  inputs : List Input
  output : String
  selector : String
  selector_hash : String
  deriving DecidableEq

/-- Mirror of struct Module in src/main.rs. -/
structure Module where
  name : String
  evm_id : String
  functions : List Function
  deriving DecidableEq

/-- Translation of the per-input closure in main (src/main.rs lines
251-261): read the raw type string, parse it, convert it, and build the
Input record. The unwrap and todo panics are modelled as error values. -/
def buildInput (m : Json) : Except String Input :=
  match jsonAsStr (jsonIndex m "type") with
  | none => .error "called Option::unwrap on a None value"
  | some raw_type =>
    match readerRead raw_type with
    | .error e => .error e
    | .ok param_type =>
      match convert_type param_type with
      | .error e => .error e
      | .ok converted =>
        .ok { name := jsonDisplay (jsonIndex m "name"), evm_type := raw_type, rust_type := converted }

/-- Translation of the per-function closure in main (src/main.rs lines
248-282): build the inputs, join the raw ABI type texts with commas inside
parentheses after the name to form the canonical signature, hash it with
Keccak-256, and keep the first 4 digest bytes in lowercase hexadecimal. -/
def buildFunction (function : Json) : Except String Function :=
  let function_name := jsonDisplay (jsonIndex function "name")
  match mapExcept buildInput (jsonMembers (jsonIndex function "inputs")) with
  | .error e => .error e
  | .ok inputs =>
    let selector := function_name ++ "(" ++ String.intercalate "," (inputs.map Input.evm_type) ++ ")"
    let selector_hash := encodeHex ((keccak256 (utf8Bytes selector)).take 4)
    .ok { name := function_name, inputs := inputs, output := "bool",
          selector := selector, selector_hash := selector_hash }

/-- Translation of the filter chain in main (src/main.rs lines 243-283):
keep entries whose type is the string "function", whose stateMutability is
not the string "view", and whose every output has type "bool", then build
a Function from each in order. The filters are pure, so the lazy Rust
iterator yields the same list as filtering first and mapping second. -/
def selectFunctions (rawEntries : List Json) : Except String (List Function) :=
  mapExcept buildFunction
    (((rawEntries.filter fun item => jsonEqStr (jsonIndex item "type") "function").filter
        fun item => !jsonEqStr (jsonIndex item "stateMutability") "view").filter
      fun item => (jsonMembers (jsonIndex item "outputs")).all fun output => jsonEqStr (jsonIndex output "type") "bool")

/-- The eligibility predicate, the conjunction of the three filters. -/
def isEligible (item : Json) : Bool :=
  jsonEqStr (jsonIndex item "type") "function" &&
  !jsonEqStr (jsonIndex item "stateMutability") "view" &&
  (jsonMembers (jsonIndex item "outputs")).all fun output => jsonEqStr (jsonIndex output "type") "bool"

/-! Section: The run skeleton of main

main opens the input, creates the output (fs::File::create truncates an
existing destination to empty), reads and parses the input, builds the
function list, renders the template, and only then writes the rendered
text followed by a newline. The externally supplied pieces are parameters:
the opened input stream, the read input text, the JSON parser of the json
crate, and the template renderer of the tinytemplate crate. File creation
is modelled as an effect that always succeeds, and writing as an effect;
panics inside the pipeline are modelled like error returns, since both
abort the process before rendering with a nonzero exit. -/

/-- Observable file effects of one run. -/
inductive Effect where
  | createOutput : String → Effect
  | writeOutput : String → Effect
  deriving DecidableEq

/-- Translation of fn main (src/main.rs lines 186-295) as an effect trace
plus an outcome. -/
def mainRun (render : Module → Except String String)
    (openInput : Except String Unit)
    (readInput : Except String String)
    (parse : String → Except String Json)
    (output : Option String)
    (module_name evm_id : String) : List Effect × Except String Unit :=
  match openInput with
  | .error e => ([], .error e)
  | .ok _ =>
    let created :=
      match output with
      | some filename => [Effect.createOutput filename]
      | none => []
    match readInput with
    | .error e => (created, .error e)
    | .ok buf =>
      match parse buf with
      | .error e => (created, .error e)
      | .ok parsed =>
        match selectFunctions (jsonMembers parsed) with
        | .error e => (created, .error e)
        | .ok functions =>
          let module : Module := { name := module_name, evm_id := evm_id, functions := functions }
          match render module with
          | .error e => (created, .error e)
          | .ok rendered => (created ++ [Effect.writeOutput (rendered ++ "\n")], .ok ())

/-- A parser that succeeds with a fixed document, standing for a run of
the json crate parser on an input that parses to that document. -/
def parseConst (j : Json) : String → Except String Json :=
  fun _ => .ok j

/-- Substring scan: whether the needle occurs contiguously in the hay. -/
def containsSub : List Char → List Char → Bool
  | [], needle => needle.isEmpty
  | c :: rest, needle => charsStartWith needle (c :: rest) || containsSub rest needle

/-- Whether one string occurs inside another. -/
def strContains (hay needle : String) : Bool :=
  containsSub hay.data needle.data

/-! Section: Concrete interface entries used to instantiate the theorems -/

/-- The ERC-20 transfer entry from the end-to-end scenario. -/
def transferEntry : Json :=
  .obj [("type", .str "function"), ("name", .str "transfer"), ("stateMutability", .str "nonpayable"),
    ("inputs", .arr [.obj [("name", .str "to"), ("type", .str "address")],
                     .obj [("name", .str "amount"), ("type", .str "uint256")]]),
    ("outputs", .arr [.obj [("type", .str "bool")]])]

/-- The function description the generator builds from transferEntry. -/
def transferDesc : Function :=
  { name := "transfer",
    inputs := [{ name := "to", evm_type := "address", rust_type := "H160" },
               { name := "amount", evm_type := "uint256", rust_type := "U256" }],
    output := "bool",
    selector := "transfer(address,uint256)",
    selector_hash := "a9059cbb" }

/-- A view function returning bool: excluded by the mutability filter. -/
def viewerEntry : Json :=
  .obj [("type", .str "function"), ("name", .str "viewer"), ("stateMutability", .str "view"),
    ("inputs", .arr []), ("outputs", .arr [.obj [("type", .str "bool")]])]

/-- A non-view function returning bool: the one eligible entry of the
filtering scenario. -/
def doThingEntry : Json :=
  .obj [("type", .str "function"), ("name", .str "doThing"), ("stateMutability", .str "nonpayable"),
    ("inputs", .arr []), ("outputs", .arr [.obj [("type", .str "bool")]])]

/-- A non-view function returning uint256: excluded by the output filter. -/
def getCountEntry : Json :=
  .obj [("type", .str "function"), ("name", .str "getCount"), ("stateMutability", .str "nonpayable"),
    ("inputs", .arr []), ("outputs", .arr [.obj [("type", .str "uint256")]])]

/-- The function description the generator builds from doThingEntry. -/
def doThingDesc : Function :=
  { name := "doThing", inputs := [], output := "bool",
    selector := "doThing()", selector_hash := "fa62770c" }

/-- A non-view function declaring two outputs, both of type bool. -/
def twoBoolEntry : Json :=
  .obj [("type", .str "function"), ("name", .str "pair"), ("stateMutability", .str "nonpayable"),
    ("inputs", .arr []),
    ("outputs", .arr [.obj [("type", .str "bool")], .obj [("type", .str "bool")]])]

/-- The function description the generator builds from twoBoolEntry. -/
def pairDesc : Function :=
  { name := "pair", inputs := [], output := "bool",
    selector := "pair()", selector_hash := "a8aa1b31" }

/-- An input declaration of the unsupported ABI type string. -/
def zorkInput : Json :=
  .obj [("name", .str "zork"), ("type", .str "string")]

/-- A non-view function whose sole input has the unsupported type string. -/
def stringInputEntry : Json :=
  .obj [("type", .str "function"), ("name", .str "frobnicate"), ("stateMutability", .str "nonpayable"),
    ("inputs", .arr [zorkInput]),
    ("outputs", .arr [])]

/-- A view function whose sole input has the unsupported type string: the
mutability filter excludes it before its inputs are ever examined. -/
def viewStringEntry : Json :=
  .obj [("type", .str "function"), ("name", .str "frobnicate"), ("stateMutability", .str "view"),
    ("inputs", .arr [zorkInput]),
    ("outputs", .arr [])]

/-- A non-view function declaring an empty outputs array. -/
def pingEntry : Json :=
  .obj [("type", .str "function"), ("name", .str "ping"), ("stateMutability", .str "nonpayable"),
    ("inputs", .arr []), ("outputs", .arr [])]

/-- The function description the generator builds from pingEntry. -/
def pingDesc : Function :=
  { name := "ping", inputs := [], output := "bool",
    selector := "ping()", selector_hash := "5c36b186" }

end Sumi

deriving instance DecidableEq for Except

namespace Sumi

/-! Section: Helper lemmas -/

/-- A successful mapExcept applies the function successfully to each
element, pairing inputs and outputs in order. -/
theorem mapExcept_ok_forall₂ (f : α → Except String β) :
    ∀ (l : List α) (ys : List β), mapExcept f l = .ok ys →
      List.Forall₂ (fun x y => f x = .ok y) l ys := by
  intro l
  induction l with
  | nil =>
    intro ys h
    simp only [mapExcept] at h
    injection h with h
    subst h
    exact .nil
  | cons a t ih =>
    intro ys h
    simp only [mapExcept] at h
    cases hfa : f a with
    | error e => simp [hfa] at h
    | ok b =>
      simp only [hfa] at h
      cases hmt : mapExcept f t with
      | error e => simp [hmt] at h
      | ok bs =>
        simp only [hmt] at h
        injection h with h
        subst h
        exact .cons hfa (ih bs hmt)

/-- Three chained filters collapse to one filter by the conjunction. -/
theorem filter3 (A B C : α → Bool) (l : List α) :
    ((l.filter A).filter B).filter C = l.filter fun x => A x && B x && C x := by
  induction l with
  | nil => rfl
  | cons a t ih =>
    cases hA : A a <;> cases hB : B a <;> cases hC : C a <;>
      simp only [List.filter, hA, hB, hC, Bool.true_and, Bool.false_and,
        Bool.and_true, Bool.and_false, ih]

/-- The three filters of the selection chain collapse to the eligibility
predicate. -/
theorem selectFunctions_eq_filter (entries : List Json) :
    selectFunctions entries = mapExcept buildFunction (entries.filter isEligible) := by
  unfold selectFunctions
  rw [filter3]
  rfl

/-- The fields a successfully built Function record carries. -/
theorem buildFunction_ok (e : Json) (f : Function) (h : buildFunction e = .ok f) :
    f.name = jsonDisplay (jsonIndex e "name") ∧
    mapExcept buildInput (jsonMembers (jsonIndex e "inputs")) = .ok f.inputs ∧
    f.output = "bool" ∧
    f.selector = f.name ++ "(" ++ String.intercalate "," (f.inputs.map Input.evm_type) ++ ")" ∧
    f.selector_hash = encodeHex ((keccak256 (utf8Bytes f.selector)).take 4) := by
  simp only [buildFunction] at h
  cases hm : mapExcept buildInput (jsonMembers (jsonIndex e "inputs")) with
  | error e' => simp [hm] at h
  | ok inputs =>
    simp only [hm] at h
    injection h with h
    subst h
    exact ⟨rfl, rfl, rfl, rfl, rfl⟩

/-- A successfully built Input keeps the raw ABI type text of its entry. -/
theorem buildInput_evm_type (m : Json) (inp : Input) (h : buildInput m = .ok inp) :
    jsonAsStr (jsonIndex m "type") = some inp.evm_type := by
  simp only [buildInput] at h
  cases ha : jsonAsStr (jsonIndex m "type") with
  | none => simp [ha] at h
  | some raw =>
    simp only [ha] at h
    cases hr : readerRead raw with
    | error e => simp [hr] at h
    | ok pt =>
      simp only [hr] at h
      cases hc : convert_type pt with
      | error e => simp [hc] at h
      | ok conv =>
        simp only [hc] at h
        injection h with h
        subst h
        rfl

/-- A successful convert_type_list converts each tuple component in
order. -/
theorem convert_type_list_forall₂ :
    ∀ (ts : List ParamType) (ss : List String), convert_type_list ts = .ok ss →
      List.Forall₂ (fun t s => convert_type t = .ok s) ts ss := by
  intro ts
  induction ts with
  | nil =>
    intro ss h
    simp only [convert_type_list] at h
    injection h with h
    subst h
    exact .nil
  | cons t ts ih =>
    intro ss h
    simp only [convert_type_list] at h
    cases hc : convert_type t with
    | error e => simp [hc] at h
    | ok s =>
      simp only [hc] at h
      cases hl : convert_type_list ts with
      | error e => simp [hl] at h
      | ok ss' =>
        simp only [hl] at h
        injection h with h
        subst h
        exact .cons hc (ih ss' hl)

/-- If any list element makes the function fail, mapExcept fails (with the
message of the first failing element). -/
theorem mapExcept_error_of_mem (f : α → Except String β) :
    ∀ (l : List α) (x : α) (msg : String), x ∈ l → f x = .error msg →
      ∃ msg₁, mapExcept f l = .error msg₁ := by
  intro l
  induction l with
  | nil => intro x msg hx _; cases hx
  | cons a t ih =>
    intro x msg hx hf
    cases hx with
    | head => exact ⟨msg, by simp [mapExcept, hf]⟩
    | tail _ hxt =>
      cases hfa : f a with
      | error e => exact ⟨e, by simp [mapExcept, hfa]⟩
      | ok b =>
        obtain ⟨msg₁, hmt⟩ := ih x msg hxt hf
        exact ⟨msg₁, by simp [mapExcept, hfa, hmt]⟩

/-- An input whose declared type is the raw text "string" makes buildInput
abort with the todo panic message of convert_type. -/
theorem buildInput_string_error (m : Json)
    (ht : jsonAsStr (jsonIndex m "type") = some "string") :
    buildInput m = .error "not yet implemented: convert_type for String" := by
  have hr : readerRead "string" = .ok .String := rfl
  have hc : convert_type ParamType.String =
      .error "not yet implemented: convert_type for String" := rfl
  simp [buildInput, ht, hr, hc]

/-- A function entry one of whose declared inputs fails to build makes
buildFunction abort. -/
theorem buildFunction_error_of_input (e m : Json) (msg : String)
    (hm : m ∈ jsonMembers (jsonIndex e "inputs"))
    (hb : buildInput m = .error msg) :
    ∃ msg₁, buildFunction e = .error msg₁ := by
  obtain ⟨msg₁, h⟩ := mapExcept_error_of_mem buildInput _ m msg hm hb
  exact ⟨msg₁, by simp [buildFunction, h]⟩

/-- A selected entry that fails to build makes the whole selection
abort. -/
theorem selectFunctions_error_of_mem (entries : List Json) (e : Json) (msg : String)
    (he : e ∈ entries.filter isEligible)
    (hb : buildFunction e = .error msg) :
    ∃ msg₁, selectFunctions entries = .error msg₁ := by
  obtain ⟨msg₁, h⟩ := mapExcept_error_of_mem buildFunction _ e msg he hb
  exact ⟨msg₁, by rw [selectFunctions_eq_filter]; exact h⟩

/-- The names of the built records are the displayed name fields of their
entries, in order. -/
theorem names_of_forall₂ :
    ∀ {l : List Json} {fns : List Function},
      List.Forall₂ (fun e f => buildFunction e = .ok f) l fns →
      fns.map Function.name = l.map fun e => jsonDisplay (jsonIndex e "name") := by
  intro l fns h
  induction h with
  | nil => rfl
  | cons hef _ ih =>
    simp only [List.map_cons, ih, List.cons.injEq, and_true]
    exact (buildFunction_ok _ _ hef).1

/-! Section: Claim theorems -/

/-- C2: selectFunctions yields exactly the entries whose type is
"function", whose stateMutability is not "view", and whose every declared
output has ABI type "bool", each turned into its Function record by
buildFunction, in the same relative order as the input; in particular the
record names follow the filtered entry names in order. -/
theorem c2_selection_exact (entries : List Json) (fns : List Function)
    (h : selectFunctions entries = .ok fns) :
    List.Forall₂ (fun e f => buildFunction e = .ok f)
      (entries.filter fun entry =>
        jsonEqStr (jsonIndex entry "type") "function" &&
        !jsonEqStr (jsonIndex entry "stateMutability") "view" &&
        ((jsonMembers (jsonIndex entry "outputs")).all
          fun output => jsonEqStr (jsonIndex output "type") "bool")) fns ∧
    fns.map Function.name =
      (entries.filter fun entry =>
        jsonEqStr (jsonIndex entry "type") "function" &&
        !jsonEqStr (jsonIndex entry "stateMutability") "view" &&
        ((jsonMembers (jsonIndex entry "outputs")).all
          fun output => jsonEqStr (jsonIndex output "type") "bool")).map
        fun entry => jsonDisplay (jsonIndex entry "name") := by
  rw [selectFunctions_eq_filter] at h
  have h₂ := mapExcept_ok_forall₂ buildFunction _ fns h
  exact ⟨h₂, names_of_forall₂ h₂⟩

/-- C2 witness: in the scenario with one view function, one non-view
bool-returning function and one non-view uint256-returning function,
exactly the middle entry is selected, built as doThingDesc. -/
theorem c2_selection_exact_witness :
    List.Forall₂ (fun e f => buildFunction e = .ok f)
      ([viewerEntry, doThingEntry, getCountEntry].filter fun entry =>
        jsonEqStr (jsonIndex entry "type") "function" &&
        !jsonEqStr (jsonIndex entry "stateMutability") "view" &&
        ((jsonMembers (jsonIndex entry "outputs")).all
          fun output => jsonEqStr (jsonIndex output "type") "bool")) [doThingDesc] ∧
    [doThingDesc].map Function.name =
      ([viewerEntry, doThingEntry, getCountEntry].filter fun entry =>
        jsonEqStr (jsonIndex entry "type") "function" &&
        !jsonEqStr (jsonIndex entry "stateMutability") "view" &&
        ((jsonMembers (jsonIndex entry "outputs")).all
          fun output => jsonEqStr (jsonIndex output "type") "bool")).map
        fun entry => jsonDisplay (jsonIndex entry "name") :=
  c2_selection_exact [viewerEntry, doThingEntry, getCountEntry] [doThingDesc] (by decide)

/-- C3 counterexample: an entry declaring two outputs, both of ABI type
"bool", passes every filter and is wrapped, so the claim that entries with
more than one output are excluded is false. -/
theorem c3_counterexample :
    isEligible twoBoolEntry = true ∧
    1 < (jsonMembers (jsonIndex twoBoolEntry "outputs")).length ∧
    selectFunctions [twoBoolEntry] = .ok [pairDesc] :=
  ⟨rfl, by decide, rfl⟩

/-- C3 amended: an entry declaring more than one output is still selected
whenever its type is "function", its stateMutability is not "view" and
every one of its outputs has ABI type "bool"; the output count never
excludes an entry. -/
theorem c3_amended_multiple_bool_outputs_selected (item : Json)
    (h1 : jsonEqStr (jsonIndex item "type") "function" = true)
    (h2 : jsonEqStr (jsonIndex item "stateMutability") "view" = false)
    (_h3 : 1 < (jsonMembers (jsonIndex item "outputs")).length)
    (h4 : ((jsonMembers (jsonIndex item "outputs")).all
        fun output => jsonEqStr (jsonIndex output "type") "bool") = true) :
    isEligible item = true := by
  simp [isEligible, h1, h2, h4]

/-- C3 amended witness: the two-bool-output entry instantiates the amended
claim. -/
theorem c3_amended_witness : isEligible twoBoolEntry = true :=
  c3_amended_multiple_bool_outputs_selected twoBoolEntry rfl rfl (by decide) rfl

/-- C6: the type mapper is structurally recursive and composes without
flattening or truncation: a successful inner mapping lifts through Array
as Vec, through FixedArray with the literal length, and through Tuple
positionally in order; in particular FixedArray(Array(Bool), 3) maps to
the fixed-length-3 array of growable bool sequences. -/
theorem c6_type_mapper_recursion (t : ParamType) (s : String) (n : Nat)
    (ts : List ParamType) (ss : List String)
    (h : convert_type t = .ok s) (hl : convert_type_list ts = .ok ss) :
    convert_type (.Array t) = .ok ("Vec<" ++ s ++ ">") ∧
    convert_type (.FixedArray t n) = .ok ("[" ++ s ++ "; " ++ toString n ++ "]") ∧
    convert_type (.Tuple ts) = .ok ("(" ++ String.intercalate ", " ss ++ ")") ∧
    List.Forall₂ (fun a b => convert_type a = .ok b) ts ss ∧
    convert_type (.FixedArray (.Array .Bool) 3) = .ok "[Vec<bool>; 3]" := by
  refine ⟨?_, ?_, ?_, convert_type_list_forall₂ ts ss hl, by decide⟩
  · simp [convert_type, h]
  · simp [convert_type, h]
  · simp [convert_type, hl]

/-- C6 witness: instantiated at Bool, size 3 and the two-element tuple
of Bool and Address. -/
theorem c6_type_mapper_recursion_witness :
    convert_type (.Array .Bool) = .ok "Vec<bool>" ∧
    convert_type (.FixedArray .Bool 3) = .ok "[bool; 3]" ∧
    convert_type (.Tuple [.Bool, .Address]) = .ok "(bool, H160)" ∧
    List.Forall₂ (fun a b => convert_type a = .ok b) [.Bool, .Address] ["bool", "H160"] ∧
    convert_type (.FixedArray (.Array .Bool) 3) = .ok "[Vec<bool>; 3]" :=
  c6_type_mapper_recursion .Bool "bool" 3 [.Bool, .Address] ["bool", "H160"] rfl rfl

/-- C7: every unsigned integer width maps to the single fixed-width type
text U256, independent of the declared width. -/
theorem c7_uint_width_independent (w : Nat) : convert_type (.Uint w) = .ok "U256" :=
  rfl

/-- C7 witness: instantiated at width 8. -/
theorem c7_uint_width_independent_witness : convert_type (.Uint 8) = .ok "U256" :=
  c7_uint_width_independent 8

/-- C9: the casing formatters produce exactly snake "transfer_from",
upper snake "TRANSFER_FROM" and capitalized "Erc20" on the spec inputs. -/
theorem c9_casing_formatters :
    snake_formatter (.str "transferFrom") = .ok "transfer_from" ∧
    upper_snake_formatter (.str "transferFrom") = .ok "TRANSFER_FROM" ∧
    capitalize_formatter (.str "erc20") = .ok "Erc20" :=
  ⟨rfl, rfl, rfl⟩

/-- C10: an entry of type "function" with non-view stateMutability and an
empty outputs array is eligible (the all-outputs-bool condition holds
vacuously), and its built Function record carries the literal output kind
"bool" although no boolean output was declared. -/
theorem c10_empty_outputs_selected (item : Json) (f : Function)
    (h1 : jsonEqStr (jsonIndex item "type") "function" = true)
    (h2 : jsonEqStr (jsonIndex item "stateMutability") "view" = false)
    (h3 : jsonMembers (jsonIndex item "outputs") = []) :
    isEligible item = true ∧ (buildFunction item = .ok f → f.output = "bool") := by
  constructor
  · simp [isEligible, h1, h2, h3]
  · intro h
    exact (buildFunction_ok item f h).2.2.1

/-- C10 witness: the ping entry with an empty outputs array is selected
and its output kind is the literal "bool". -/
theorem c10_empty_outputs_selected_witness :
    isEligible pingEntry = true ∧ pingDesc.output = "bool" := by
  have h := c10_empty_outputs_selected pingEntry pingDesc rfl rfl rfl
  exact ⟨h.1, h.2 (by decide)⟩

/-- C1: every built Function record satisfies the selector invariant: its
canonical signature is the name followed by the comma-joined raw ABI type
texts of its inputs in declared order inside parentheses with no spaces,
and its selector is the first 4 bytes, most significant first, of the
Keccak-256 digest of exactly that string; for the known signature
"transfer(address,uint256)" the selector is the published constant
a9059cbb. -/
theorem c1_canonical_signature_selector (e : Json) (f : Function)
    (h : buildFunction e = .ok f) :
    f.selector = f.name ++ "(" ++ String.intercalate "," (f.inputs.map Input.evm_type) ++ ")" ∧
    f.selector_hash = encodeHex ((keccak256 (utf8Bytes f.selector)).take 4) ∧
    List.Forall₂ (fun m inp => jsonAsStr (jsonIndex m "type") = some inp.evm_type)
      (jsonMembers (jsonIndex e "inputs")) f.inputs ∧
    encodeHex ((keccak256 (utf8Bytes "transfer(address,uint256)")).take 4) = "a9059cbb" := by
  obtain ⟨hn, hi, ho, hs, hh⟩ := buildFunction_ok e f h
  refine ⟨hs, hh, ?_, by decide⟩
  exact (mapExcept_ok_forall₂ buildInput _ f.inputs hi).imp
    fun m inp hmi => buildInput_evm_type m inp hmi

/-- C1 witness: the transfer entry builds transferDesc, whose canonical
signature is "transfer(address,uint256)" and whose selector hash is the
published a9059cbb. -/
theorem c1_canonical_signature_selector_witness :
    transferDesc.selector =
      transferDesc.name ++ "(" ++ String.intercalate "," (transferDesc.inputs.map Input.evm_type) ++ ")" ∧
    transferDesc.selector_hash = encodeHex ((keccak256 (utf8Bytes transferDesc.selector)).take 4) ∧
    List.Forall₂ (fun m inp => jsonAsStr (jsonIndex m "type") = some inp.evm_type)
      (jsonMembers (jsonIndex transferEntry "inputs")) transferDesc.inputs ∧
    encodeHex ((keccak256 (utf8Bytes "transfer(address,uint256)")).take 4) = "a9059cbb" :=
  c1_canonical_signature_selector transferEntry transferDesc (by decide)

/-- C4 counterexample: on the interface whose sole function has an input
of the unsupported type "string", generation aborts, and the diagnostic is
the todo panic message naming the unsupported type; it does not identify
the offending function name (frobnicate) or input name (zork), contrary
to the claim. -/
theorem c4_counterexample :
    selectFunctions [stringInputEntry] = .error "not yet implemented: convert_type for String" ∧
    strContains "not yet implemented: convert_type for String" "String" = true ∧
    strContains "not yet implemented: convert_type for String" "frobnicate" = false ∧
    strContains "not yet implemented: convert_type for String" "zork" = false :=
  ⟨rfl, rfl, rfl, rfl⟩

/-- C4 amended: for every interface description containing a selected
function (one passing the type, mutability and outputs filters) with an
input whose raw ABI type text is "string", generation aborts fatally
before rendering, whatever the renderer, and no generated content is
written: the effect trace holds only the empty destination file created at
startup. The unsupported-type diagnostic is the panic message naming the
unsupported type, exactly "not yet implemented: convert_type for String"
for the single-entry interface of the spec scenario; and inputs of
functions the filters exclude are never examined, so the same string input
on a view function leaves generation successful. -/
theorem c4_amended_unsupported_type_aborts (render : Module → Except String String)
    (doc e m : Json) (out buf mn ei : String)
    (he : e ∈ (jsonMembers doc).filter isEligible)
    (hm : m ∈ jsonMembers (jsonIndex e "inputs"))
    (ht : jsonAsStr (jsonIndex m "type") = some "string") :
    (mainRun render (.ok ()) (.ok buf) (parseConst doc) (some out) mn ei).2 ≠ .ok () ∧
    (mainRun render (.ok ()) (.ok buf) (parseConst doc) (some out) mn ei).1 =
      [Effect.createOutput out] ∧
    selectFunctions [stringInputEntry] =
      .error "not yet implemented: convert_type for String" ∧
    selectFunctions [viewStringEntry] = .ok [] := by
  obtain ⟨msg₁, hbf⟩ :=
    buildFunction_error_of_input e m _ hm (buildInput_string_error m ht)
  obtain ⟨msg₂, hsel⟩ := selectFunctions_error_of_mem (jsonMembers doc) e msg₁ he hbf
  refine ⟨?_, ?_, rfl, rfl⟩ <;> simp [mainRun, parseConst, hsel]

/-- C4 amended witness: instantiated at the spec scenario interface whose
sole function has the sole string-typed input, with a concrete renderer
and output path. -/
theorem c4_amended_unsupported_type_aborts_witness :
    (mainRun (fun _ => .ok "") (.ok ()) (.ok "[]") (parseConst (.arr [stringInputEntry]))
        (some "out.rs") "erc20" "0x0F").2 ≠ .ok () ∧
    (mainRun (fun _ => .ok "") (.ok ()) (.ok "[]") (parseConst (.arr [stringInputEntry]))
        (some "out.rs") "erc20" "0x0F").1 =
      [Effect.createOutput "out.rs"] ∧
    selectFunctions [stringInputEntry] =
      .error "not yet implemented: convert_type for String" ∧
    selectFunctions [viewStringEntry] = .ok [] :=
  c4_amended_unsupported_type_aborts (fun _ => .ok "") (.arr [stringInputEntry])
    stringInputEntry zorkInput "out.rs" "[]" "erc20" "0x0F"
    (List.Mem.head _) (List.Mem.head _) rfl

/-- C5 counterexample: a run that fails on malformed JSON still creates
the destination file named by the output option (fs::File::create runs,
truncating it to empty, before the input is parsed), so the destination is
not left without empty generated content. -/
theorem c5_counterexample :
    mainRun (fun _ => .ok "") (.ok ()) (.ok "not json") (fun _ => .error "Unexpected character")
        (some "out.rs") "erc20" "0x0F" =
      ([Effect.createOutput "out.rs"], .error "Unexpected character") := by
  decide

/-- C5 amended: on every failing run nothing is written to the
destination (the write effect never occurs, so output content appears only
on a fully successful run); the destination file is nonetheless created,
and truncated to empty, before processing begins. -/
theorem c5_amended_no_write_on_failure (render : Module → Except String String)
    (openInput : Except String Unit) (readInput : Except String String)
    (parse : String → Except String Json) (output : Option String)
    (mn ei e c : String)
    (h : (mainRun render openInput readInput parse output mn ei).2 = .error e) :
    Effect.writeOutput c ∉ (mainRun render openInput readInput parse output mn ei).1 := by
  unfold mainRun at h ⊢
  cases openInput with
  | error e' => simp
  | ok u =>
    cases readInput with
    | error e' => cases output <;> simp
    | ok buf =>
      cases hp : parse buf with
      | error e' => cases output <;> simp [hp]
      | ok parsed =>
        cases hs : selectFunctions (jsonMembers parsed) with
        | error e' => cases output <;> simp [hp, hs]
        | ok functions =>
          cases hr : render { name := mn, evm_id := ei, functions := functions } with
          | error e' => cases output <;> simp [hp, hs, hr]
          | ok rendered => simp [hp, hs, hr] at h

/-- C5 amended witness: on the malformed-JSON run no write effect
occurs. -/
theorem c5_amended_no_write_on_failure_witness :
    Effect.writeOutput "x" ∉
      (mainRun (fun _ => .ok "") (.ok ()) (.ok "not json")
        (fun _ => .error "Unexpected character") (some "out.rs") "erc20" "0x0F").1 :=
  c5_amended_no_write_on_failure (fun _ => .ok "") (.ok ()) (.ok "not json")
    (fun _ => .error "Unexpected character") (some "out.rs") "erc20" "0x0F"
    "Unexpected character" "x" (by decide)

/-- C8 counterexample: capitalize does not succeed on every string: it
panics on the empty string, and also on a string whose first character
occupies more than one byte; and the convertType formatter fails on the
string "string" although it is applied to a string value. -/
theorem c8_counterexample :
    capitalize_formatter (.str "") = .error "byte index 1 is out of bounds" ∧
    capitalize_formatter (.str "érc20") = .error "byte index 1 is not a char boundary" ∧
    convert_type_formatter (.str "string") =
      .error "not yet implemented: convert_type for String" :=
  ⟨rfl, rfl, rfl⟩

/-- C8 amended: each formatter fails on every non-string value; snake and
upperSnake succeed on every string; capitalize succeeds exactly on strings
whose first character is a single-byte (ASCII) character, returning the
string with only that character uppercased and the remainder unchanged,
and panics on the empty string or a leading multi-byte character; the
convertType formatter succeeds on a string exactly when it parses as a
supported ABI type. -/
theorem c8_amended_formatter_domains (v : Json) (s : String)
    (c₁ : Char) (rest₁ : List Char) (c₂ : Char) (rest₂ : List Char)
    (tstr : String) (pt : ParamType) (conv : String)
    (hv : jsonIsString v = false)
    (h1 : c₁.toNat < 0x80)
    (h2 : 0x80 ≤ c₂.toNat)
    (h3 : readerRead tstr = .ok pt)
    (h4 : convert_type pt = .ok conv) :
    snake_formatter v = .error "string value expected" ∧
    upper_snake_formatter v = .error "string value expected" ∧
    capitalize_formatter v = .error "string value expected" ∧
    convert_type_formatter v = .error "string value expected" ∧
    snake_formatter (.str s) = .ok (toSnake s) ∧
    upper_snake_formatter (.str s) = .ok (toUpperSnake s) ∧
    capitalize_formatter (.str (String.mk (c₁ :: rest₁))) = .ok (String.mk (c₁.toUpper :: rest₁)) ∧
    capitalize_formatter (.str (String.mk (c₂ :: rest₂))) =
      .error "byte index 1 is not a char boundary" ∧
    capitalize_formatter (.str "") = .error "byte index 1 is out of bounds" ∧
    convert_type_formatter (.str tstr) = .ok conv := by
  refine ⟨?_, ?_, ?_, ?_, rfl, rfl, ?_, ?_, rfl, ?_⟩
  · cases v <;> first | rfl | simp [jsonIsString] at hv
  · cases v <;> first | rfl | simp [jsonIsString] at hv
  · cases v <;> first | rfl | simp [jsonIsString] at hv
  · cases v <;> first | rfl | simp [jsonIsString] at hv
  · simp [capitalize_formatter, h1]
  · simp [capitalize_formatter, Nat.not_lt.mpr h2]
  · simp [convert_type_formatter, h3, h4]

/-- C8 amended witness: instantiated at a number value, the string
"transferFrom", an ASCII-headed and a multi-byte-headed string, and the
supported raw type "address". -/
theorem c8_amended_formatter_domains_witness :
    snake_formatter (.num 0) = .error "string value expected" ∧
    upper_snake_formatter (.num 0) = .error "string value expected" ∧
    capitalize_formatter (.num 0) = .error "string value expected" ∧
    convert_type_formatter (.num 0) = .error "string value expected" ∧
    snake_formatter (.str "transferFrom") = .ok (toSnake "transferFrom") ∧
    upper_snake_formatter (.str "transferFrom") = .ok (toUpperSnake "transferFrom") ∧
    capitalize_formatter (.str (String.mk ('e' :: "rc20".data))) =
      .ok (String.mk ('e'.toUpper :: "rc20".data)) ∧
    capitalize_formatter (.str (String.mk ('é' :: []))) =
      .error "byte index 1 is not a char boundary" ∧
    capitalize_formatter (.str "") = .error "byte index 1 is out of bounds" ∧
    convert_type_formatter (.str "address") = .ok "H160" :=
  c8_amended_formatter_domains (.num 0) "transferFrom" 'e' "rc20".data 'é' []
    "address" .Address "H160" rfl (by decide) (by decide) rfl rfl

end Sumi


